import Mathlib

/-!
Shallow embedding of `src/pyetm/utils/regionalisation.py` (pandas-based).

A pandas `DataFrame` is modelled as a `Frame`: an ordered list of row labels,
an ordered list of column labels, and a total valuation function; values are
exact rationals (the floating-point layer is outside the model).  A pandas
`Series` (one node row of a weight table) is modelled likewise.  Logging is
modelled by returning the list of emitted warnings; raised Python exceptions
are modelled by `Except.error`.
-/

namespace PyETM

/-- Error handling mode, from `pyetm.types.ErrorHandling`; the code only ever
tests for the two literals "warn" and "raise". -/
inductive ErrorHandling
  | warn
  | raise
deriving DecidableEq

/-- A pandas DataFrame: ordered row labels, ordered column labels, and cell
values.  `val` is total; only its restriction to `rows × cols` is meaningful. -/
structure Frame (ρ : Type) where
  rows : List ρ
  cols : List String
  val : ρ → String → ℚ

/-- A pandas Series (here: one node row of a regionalisation table). -/
structure Series where
  idx : List String
  val : String → ℚ

/-- Warnings emitted through `logger.warning`, identified structurally. -/
inductive Warn
  | deficits
  | unusedKey (key : String)
  | badSum (key : String) (value : ℚ)
  | multiNodeSubset
  | multiSectorSubset
deriving DecidableEq

/-- Python exceptions raised by the regionalisation module, with the data the
messages are built from (`iterable_to_str` and `mapped_floats_to_str` merely
format these payloads). -/
inductive RegError
  | balanceError
  | keyErrorGroup (key : String)
  | keyErrorMissing (keys : List String)
  | keyErrorUnused (keys : List String)
  | valueErrorSums (sums : List (String × ℚ))
  | keyErrorLoc
  | indexError
  | misaligned
deriving DecidableEq

/-- Round a rational to the nearest integer, ties to even: the rounding used
by numpy/pandas `round` (modelled exactly over the rationals). -/
def roundHalfEven (x : ℚ) : ℤ :=
  let f := ⌊x⌋
  let r := x - (f : ℚ)
  if r < 1/2 then f
  else if 1/2 < r then f + 1
  else if f % 2 = 0 then f else f + 1

/-- Round a rational to `p` decimal places (`Series.round(p)`). -/
def roundTo (p : Nat) (x : ℚ) : ℚ :=
  ((roundHalfEven (x * 10 ^ p) : ℤ) : ℚ) / 10 ^ p

/-- Whether `suff` is a suffix of `s`, on the character lists. -/
def strEndsWith (s suff : String) : Bool :=
  suff.data.isSuffixOf s.data

/-- Column classification of `validate_hourly_curves_balance`: the regex map
sends names matching `^.*[.]output [(]MW[)]$` to "supply" and names matching
`^.*[.]input [(]MW[)]$` to "demand"; every other name is left unchanged. -/
def productName (name : String) : String :=
  if strEndsWith name ".output (MW)" then "supply"
  else if strEndsWith name ".input (MW)" then "demand"
  else name

/-- Whether, after classification, the grouped frame has a column group `g`
(`curves[g]` raises `KeyError` otherwise). -/
def hasGroup {ρ : Type} (curves : Frame ρ) (g : String) : Prop :=
  ∃ c ∈ curves.cols, productName c = g

instance {ρ : Type} (curves : Frame ρ) (g : String) :
    Decidable (hasGroup curves g) :=
  inferInstanceAs (Decidable (∃ c ∈ curves.cols, productName c = g))

/-- Value of the aggregated (groupby-sum) column `g` at row `r`. -/
def groupSum {ρ : Type} (curves : Frame ρ) (g : String) (r : ρ) : ℚ :=
  ((curves.cols.filter (fun c => productName c == g)).map (curves.val r)).sum

/-- Hourly balance `curves["supply"] - curves["demand"]` at row `r`. -/
def balanceAt {ρ : Type} (curves : Frame ρ) (r : ρ) : ℚ :=
  groupSum curves "supply" r - groupSum curves "demand" r

/-- Embedding of `validate_hourly_curves_balance`: classifies columns into
supply/demand groups, aggregates them, and warns or raises when some hour's
balance does not round to 0 at `precision` decimals.  The unconditional group
lookups `curves["supply"]` and `curves["demand"]` raise `KeyError` when the
corresponding group is absent. -/
def validate_hourly_curves_balance {ρ : Type} (curves : Frame ρ)
    (precision : Nat := 1) (errors : ErrorHandling := .warn) :
    Except RegError (List Warn) :=
  if ¬ hasGroup curves "supply" then .error (.keyErrorGroup "supply")
  else if ¬ hasGroup curves "demand" then .error (.keyErrorGroup "demand")
  else if ∃ r ∈ curves.rows, roundTo precision (balanceAt curves r) ≠ 0 then
    match errors with
    | .warn => .ok [.deficits]
    | .raise => .error .balanceError
  else .ok []

/-- Curve-table column keys absent from the regionalisation table
(`curves.columns[~curves.columns.isin(reg.columns)]`). -/
def missingKeys {ρ : Type} (curves : Frame ρ) (reg : Frame String) : List String :=
  curves.cols.filter (fun c => !(reg.cols.contains c))

/-- Regionalisation column keys absent from the curve table
(`reg.columns[~reg.columns.isin(curves.columns)]`). -/
def superfluousKeys {ρ : Type} (curves : Frame ρ) (reg : Frame String) : List String :=
  reg.cols.filter (fun c => !(curves.cols.contains c))

/-- Column sum of the regionalisation table (`reg.sum(axis=0)` at key `c`). -/
def colSum (reg : Frame String) (c : String) : ℚ :=
  (reg.rows.map (fun r => reg.val r c)).sum

/-- The offending entries of `sums[sums != 1]` where
`sums = reg.sum(axis=0).round(prec)`: each column whose rounded sum differs
from 1, paired with that rounded sum. -/
def checksumErrors (reg : Frame String) (prec : Nat) : List (String × ℚ) :=
  reg.cols.filterMap (fun c =>
    let s := roundTo prec (colSum reg c)
    if s = 1 then none else some (c, s))

/-- Embedding of `validate_regionalisation`: missing curve keys are always a
`KeyError`; superfluous regionalisation keys and non-unit column sums warn or
raise according to `errors`. -/
def validate_regionalisation {ρ : Type} (curves : Frame ρ) (reg : Frame String)
    (prec : Nat := 3) (errors : ErrorHandling := .warn) :
    Except RegError (List Warn) :=
  if missingKeys curves reg ≠ [] then
    .error (.keyErrorMissing (missingKeys curves reg))
  else
    match errors with
    | .raise =>
      if superfluousKeys curves reg ≠ [] then
        .error (.keyErrorUnused (superfluousKeys curves reg))
      else if checksumErrors reg prec ≠ [] then
        .error (.valueErrorSums (checksumErrors reg prec))
      else .ok []
    | .warn =>
      .ok ((superfluousKeys curves reg).map Warn.unusedKey
        ++ (checksumErrors reg prec).map (fun p => Warn.badSum p.1 p.2))

/-- Row subsetting `f.loc[labels, :]`: every label must be present, otherwise
pandas raises a `KeyError`; the result keeps the labels in request order. -/
def Frame.locRows {ρ : Type} [DecidableEq ρ] (f : Frame ρ) (labels : List ρ) :
    Except RegError (Frame ρ) :=
  if ∀ l ∈ labels, l ∈ f.rows then .ok ⟨labels, f.cols, f.val⟩
  else .error .keyErrorLoc

/-- Column subsetting `f.loc[:, labels]`. -/
def Frame.locCols {ρ : Type} (f : Frame ρ) (labels : List String) :
    Except RegError (Frame ρ) :=
  if ∀ l ∈ labels, l ∈ f.cols then .ok ⟨f.rows, labels, f.val⟩
  else .error .keyErrorLoc

/-- Index subsetting `s.loc[labels]` on a Series. -/
def Series.locIdx (s : Series) (labels : List String) : Except RegError Series :=
  if ∀ l ∈ labels, l ∈ s.idx then .ok ⟨labels, s.val⟩
  else .error .keyErrorLoc

/-- Resolve a Python positional index against length `n` (negatives count from
the end); `none` when out of range. -/
def resolvePos (n : Nat) (p : Int) : Option Nat :=
  let q := if p < 0 then p + n else p
  if 0 ≤ q ∧ q < (n : Int) then some q.toNat else none

/-- Positional row subsetting `f.iloc[ps, :]`; raises `IndexError` when a
position is out of bounds. -/
def Frame.ilocRows {ρ : Type} (f : Frame ρ) (ps : List Int) :
    Except RegError (Frame ρ) :=
  match ps.mapM (fun p => (resolvePos f.rows.length p).bind (fun q => f.rows.get? q)) with
  | some labs => .ok ⟨labs, f.cols, f.val⟩
  | none => .error .indexError

/-- Label lists holding the same keys (pandas alignment succeeds exactly when
neither side has a key the other lacks; labels are assumed duplicate-free, as
in any well-formed pandas table). -/
def listSetEq (a b : List String) : Prop :=
  (∀ x ∈ a, x ∈ b) ∧ (∀ x ∈ b, x ∈ a)

instance (a b : List String) : Decidable (listSetEq a b) :=
  inferInstanceAs (Decidable ((∀ x ∈ a, x ∈ b) ∧ (∀ x ∈ b, x ∈ a)))

/-- Matrix product `curves.dot(reg.T)`: pandas aligns the columns of `curves`
with the columns of `reg` and raises `ValueError` ("matrices are not
aligned") when the key sets differ.  The result has the curve rows as rows
and the regionalisation nodes as columns. -/
def Frame.dotT {ρ : Type} (curves : Frame ρ) (reg : Frame String) :
    Except RegError (Frame ρ) :=
  if listSetEq curves.cols reg.cols then
    .ok ⟨curves.rows, reg.rows,
      fun r n => (curves.cols.map (fun s => curves.val r s * reg.val n s)).sum⟩
  else .error .misaligned

/-- Element-wise product `f.mul(s)` of a frame with a series, aligned on the
column keys.  When the key sets differ pandas pads the union with NaN
columns; NaN is outside this exact-rational model, so that case is flagged
as `misaligned` (no claim reaches it). -/
def Frame.mulSeries {ρ : Type} (f : Frame ρ) (s : Series) :
    Except RegError (Frame ρ) :=
  if listSetEq f.cols s.idx then
    .ok ⟨f.rows, f.cols, fun r c => f.val r c * s.val c⟩
  else .error .misaligned

/-- A `node`/`sector` argument: `str | list[str]`. -/
inductive KeyArg
  | single (k : String)
  | many (ks : List String)

/-- An `hours` argument: `int | list[int]`. -/
inductive HoursArg
  | single (h : Int)
  | many (hs : List Int)

/-- The promotion of a single key to a one-element list performed by
`regionalise_curves`. -/
def KeyArg.toList : KeyArg → List String
  | .single k => [k]
  | .many ks => ks

/-- The promotion of a single hour to a one-element list. -/
def HoursArg.toList : HoursArg → List Int
  | .single h => [h]
  | .many hs => hs

/-- Python `repr` of a plain string (no escapes needed for the keys in use):
the string wrapped in single quotes. -/
def pyRepr (s : String) : String := "\x27" ++ s ++ "\x27"

/-- Python `str` of a list of strings, e.g. `str(["N1", "N2"])`. -/
def pyStrList (ks : List String) : String :=
  "[" ++ String.intercalate ", " (ks.map pyRepr) ++ "]"

/-- Embedding of `regionalise_curves`: validates (balance in raise mode,
regionalisation in default warn mode), applies the optional node, sector and
hour subsets in that order — warning when a subset is a list — and returns
`curves.dot(reg.T)` together with the warnings logged on the way. -/
def regionalise_curves {ρ : Type} (curves : Frame ρ) (reg : Frame String)
    (node : Option KeyArg := none) (sector : Option KeyArg := none)
    (hours : Option HoursArg := none) :
    Except RegError (List Warn × Frame ρ) :=
  match validate_hourly_curves_balance curves 1 .raise with
  | .error e => .error e
  | .ok w1 =>
  match validate_regionalisation curves reg 3 .warn with
  | .error e => .error e
  | .ok w2 =>
  let wNode : List Warn :=
    match node with
    | some (.many _) => [.multiNodeSubset]
    | _ => []
  match (match node with
         | none => .ok reg
         | some a => reg.locRows a.toList : Except RegError (Frame String)) with
  | .error e => .error e
  | .ok reg2 =>
  let wSector : List Warn :=
    match sector with
    | some (.many _) => [.multiSectorSubset]
    | _ => []
  match (match sector with
         | none => .ok (curves, reg2)
         | some a =>
           match curves.locCols a.toList with
           | .error e => .error e
           | .ok c2 =>
             match reg2.locCols a.toList with
             | .error e => .error e
             | .ok r2 => .ok (c2, r2) : Except RegError (Frame ρ × Frame String)) with
  | .error e => .error e
  | .ok (curves2, reg3) =>
  match (match hours with
         | none => .ok curves2
         | some hs => curves2.ilocRows hs.toList : Except RegError (Frame ρ)) with
  | .error e => .error e
  | .ok curves3 =>
  match curves3.dotT reg3 with
  | .error e => .error e
  | .ok result => .ok (w1 ++ w2 ++ wNode ++ wSector, result)

/-- Embedding of `regionalise_node`: validates (both validators in their
default warn modes), coerces a non-string `node` with `str(...)`, looks that
single key up in `reg` (a `KeyError` when absent), applies the optional
sector and hour subsets, and returns `curves.mul(nreg)` with the logged
warnings. -/
def regionalise_node {ρ : Type} (curves : Frame ρ) (reg : Frame String)
    (node : KeyArg) (sector : Option KeyArg := none)
    (hours : Option HoursArg := none) :
    Except RegError (List Warn × Frame ρ) :=
  match validate_hourly_curves_balance curves 1 .warn with
  | .error e => .error e
  | .ok w1 =>
  match validate_regionalisation curves reg 3 .warn with
  | .error e => .error e
  | .ok w2 =>
  let nodeKey : String :=
    match node with
    | .single k => k
    | .many ks => pyStrList ks
  if nodeKey ∈ reg.rows then
    let nreg : Series := ⟨reg.cols, fun c => reg.val nodeKey c⟩
    match (match sector with
           | none => .ok (curves, nreg)
           | some a =>
             match curves.locCols a.toList with
             | .error e => .error e
             | .ok c2 =>
               match nreg.locIdx a.toList with
               | .error e => .error e
               | .ok s2 => .ok (c2, s2) : Except RegError (Frame ρ × Series)) with
    | .error e => .error e
    | .ok (curves2, nreg2) =>
    match (match hours with
           | none => .ok curves2
           | some hs => curves2.ilocRows hs.toList : Except RegError (Frame ρ)) with
    | .error e => .error e
    | .ok curves3 =>
    match curves3.mulSeries nreg2 with
    | .error e => .error e
    | .ok result => .ok (w1 ++ w2, result)
  else .error .keyErrorLoc

/-! ## Concrete tables used as witnesses and counterexamples -/

/-- A supply product key, matching the supply suffix pattern. -/
def cOut : String := "a.output (MW)"

/-- A demand product key, matching the demand suffix pattern. -/
def cIn : String := "a.input (MW)"

/-- A balanced two-hour curve table: supply and demand coincide per hour. -/
def curvesB : Frame Nat :=
  ⟨[0, 1], [cOut, cIn], fun r _ => (r + 1 : ℚ)⟩

/-- A valid two-node regionalisation table whose columns sum exactly to 1. -/
def regB : Frame String :=
  ⟨["N1", "N2"], [cOut, cIn], fun n c =>
    if n = "N1" then (if c = cOut then 3/10 else 6/10)
    else (if c = cOut then 7/10 else 4/10)⟩

/-- A regionalisation table giving every node weight 0.5 in every sector. -/
def regHalf : Frame String :=
  ⟨["N1", "N2"], [cOut, cIn], fun _ _ => 1/2⟩

/-- An unbalanced curve table: supply 5, demand 0 in its single hour. -/
def curvesU : Frame Nat :=
  ⟨[0], [cOut, cIn], fun _ c => if c = cOut then 5 else 0⟩

/-- A curve table whose columns are literally named "supply" and "demand",
matching neither suffix pattern, yet balanced after grouping. -/
def curvesLit : Frame Nat :=
  ⟨[0], ["supply", "demand"], fun _ _ => 1⟩

/-- A regionalisation table lacking the demand sector key of `curvesB`. -/
def regM : Frame String :=
  ⟨["N1"], [cOut], fun _ _ => 1⟩

/-- A regionalisation table whose supply column sums to 1/2 instead of 1. -/
def regBad : Frame String :=
  ⟨["N1"], [cOut, cIn], fun _ c => if c = cOut then 1/2 else 1⟩

/-- A curve table with no supply-pattern column group at all. -/
def curvesNoSup : Frame Nat :=
  ⟨[0], [cIn], fun _ _ => 0⟩

/-- A curve table with no demand-pattern column group at all. -/
def curvesNoDem : Frame Nat :=
  ⟨[0], [cOut], fun _ _ => 0⟩

/-! ## Evaluation helpers -/

lemma roundHalfEven_intCast (m : ℤ) : roundHalfEven (m : ℚ) = m := by
  simp [roundHalfEven]

lemma roundTo_intCast (p : Nat) (m : ℤ) : roundTo p ((m : ℤ) : ℚ) = m := by
  rw [roundTo]
  rw [show ((m : ℚ) * 10 ^ p) = ((m * 10 ^ p : ℤ) : ℚ) by push_cast; ring]
  rw [roundHalfEven_intCast]
  push_cast
  field_simp

lemma roundTo_one (p : Nat) : roundTo p 1 = 1 := by
  simpa using roundTo_intCast p 1

lemma roundTo_zero (p : Nat) : roundTo p 0 = 0 := by
  simpa using roundTo_intCast p 0

lemma roundTo_half : roundTo 3 ((1 : ℚ)/2) = 1/2 := by
  rw [roundTo, show ((1 : ℚ)/2 * 10 ^ 3) = ((500 : ℤ) : ℚ) by norm_num,
    roundHalfEven_intCast]
  norm_num

lemma pn_cOut : productName cOut = "supply" := by decide

lemma pn_cIn : productName cIn = "demand" := by decide

lemma pn_sup : productName "supply" = "supply" := by decide

lemma pn_dem : productName "demand" = "demand" := by decide

lemma cIn_ne_cOut : (cIn = cOut) ↔ False := by decide

lemma list_sum_map_add {α : Type} (l : List α) (f g : α → ℚ) :
    (l.map (fun a => f a + g a)).sum = (l.map f).sum + (l.map g).sum := by
  induction l with
  | nil => simp
  | cons a t ih => simp [ih]; ring

lemma list_sum_swap {α β : Type} (l1 : List α) (l2 : List β) (f : α → β → ℚ) :
    (l1.map (fun a => (l2.map (fun b => f a b)).sum)).sum
      = (l2.map (fun b => (l1.map (fun a => f a b)).sum)).sum := by
  induction l1 with
  | nil => simp
  | cons a t ih =>
    simp only [List.map_cons, List.sum_cons, ih, list_sum_map_add]

/-- When the key sets agree and every column sum rounds to 1, the default
warn-mode weight-table validation succeeds and logs nothing. -/
lemma validate_regionalisation_ok {ρ : Type} (curves : Frame ρ) (reg : Frame String)
    (hkeys : listSetEq curves.cols reg.cols)
    (hsum : ∀ c ∈ reg.cols, roundTo 3 (colSum reg c) = 1) :
    validate_regionalisation curves reg 3 .warn = .ok [] := by
  have hmiss : missingKeys curves reg = [] := by
    rw [missingKeys, List.filter_eq_nil_iff]
    intro c hc
    simp [hkeys.1 c hc]
  have hsup : superfluousKeys curves reg = [] := by
    rw [superfluousKeys, List.filter_eq_nil_iff]
    intro c hc
    simp [hkeys.2 c hc]
  have hcks : checksumErrors reg 3 = [] := by
    rw [checksumErrors, List.filterMap_eq_nil_iff]
    intro c hc
    simp [hsum c hc]
  rw [validate_regionalisation, if_neg (by simp [hmiss])]
  simp [hsup, hcks]

/-- The balanced table `curvesB` passes the balance validation in every mode. -/
lemma curvesB_balance (e : ErrorHandling) :
    validate_hourly_curves_balance curvesB 1 e = .ok [] := by
  rw [validate_hourly_curves_balance.eq_def, if_neg (by decide), if_neg (by decide),
    if_neg (by simp [balanceAt, groupSum, curvesB, pn_cOut, pn_cIn, roundTo_zero])]

lemma regB_sums : ∀ c ∈ regB.cols, colSum regB c = 1 := by
  intro c hc
  have hc2 : c = cOut ∨ c = cIn := by simpa [regB] using hc
  rcases hc2 with rfl | rfl
  · simp [colSum, regB, cOut, cIn]; norm_num
  · simp [colSum, regB, cOut, cIn]; norm_num

lemma regB_sums_round : ∀ c ∈ regB.cols, roundTo 3 (colSum regB c) = 1 :=
  fun c hc => by rw [regB_sums c hc, roundTo_one]

lemma regHalf_sums_round : ∀ c ∈ regHalf.cols, roundTo 3 (colSum regHalf c) = 1 := by
  intro c hc
  have h : colSum regHalf c = 1 := by simp [colSum, regHalf]; norm_num
  rw [h, roundTo_one]

lemma curvesU_deficit : ∃ r ∈ curvesU.rows, roundTo 1 (balanceAt curvesU r) ≠ 0 := by
  refine ⟨0, by simp [curvesU], ?_⟩
  have hb : balanceAt curvesU 0 = 5 := by
    simp [balanceAt, groupSum, curvesU, pn_cOut, pn_cIn, cIn_ne_cOut]
  rw [hb, show (5 : ℚ) = ((5 : ℤ) : ℚ) by norm_num, roundTo_intCast]
  norm_num

lemma regBad_checksum : checksumErrors regBad 3 = [(cOut, 1/2)] := by
  have h1 : roundTo 3 (colSum regBad cOut) = 1/2 := by
    rw [show colSum regBad cOut = 1/2 by simp [colSum, regBad], roundTo_half]
  have h2 : roundTo 3 (colSum regBad cIn) = 1 := by
    rw [show colSum regBad cIn = 1 by simp [colSum, regBad, cIn_ne_cOut], roundTo_one]
  have hcols : regBad.cols = [cOut, cIn] := rfl
  rw [checksumErrors, hcols, List.filterMap_cons, List.filterMap_cons, List.filterMap_nil]
  simp only [h1, h2]
  norm_num

/-! ## Claims -/

/-- C1: Mass conservation.  For every curve table and weight table with equal
column-key sets, where every weight column sums exactly to 1 and the curves
pass the balance check, the unsubsetted `regionalise_curves` returns a table
with one column per node of `reg`, and for every hour the sum of the result
row across all node columns equals the sum of that hour's input row across
all sector columns. -/
theorem mass_conservation {ρ : Type} (curves : Frame ρ) (reg : Frame String)
    (w : List Warn)
    (hbal : validate_hourly_curves_balance curves 1 .raise = .ok w)
    (hkeys : listSetEq curves.cols reg.cols)
    (hsum : ∀ c ∈ reg.cols, colSum reg c = 1) :
    ∃ ws, regionalise_curves curves reg none none none
        = .ok (ws, ⟨curves.rows, reg.rows,
            fun r n => (curves.cols.map (fun s => curves.val r s * reg.val n s)).sum⟩)
      ∧ ∀ r : ρ,
        (reg.rows.map (fun n => (curves.cols.map (fun s => curves.val r s * reg.val n s)).sum)).sum
          = (curves.cols.map (fun s => curves.val r s)).sum := by
  have hval : validate_regionalisation curves reg 3 .warn = .ok [] :=
    validate_regionalisation_ok curves reg hkeys
      (fun c hc => by rw [hsum c hc, roundTo_one])
  refine ⟨w, ?_, ?_⟩
  · rw [regionalise_curves, hbal, hval]
    rw [Frame.dotT, if_pos hkeys]
    simp
  · intro r
    rw [list_sum_swap]
    have h : ∀ s ∈ curves.cols,
        (reg.rows.map (fun n => curves.val r s * reg.val n s)).sum
          = curves.val r s := by
      intro s hs
      rw [List.sum_map_mul_left, ← colSum, hsum s (hkeys.1 s hs), mul_one]
    exact congrArg List.sum (List.map_congr_left h)

/-- C1 witness: mass conservation at the concrete pair `curvesB`, `regB`. -/
theorem mass_conservation_witness :
    ∃ ws, regionalise_curves curvesB regB none none none
        = .ok (ws, ⟨curvesB.rows, regB.rows,
            fun r n => (curvesB.cols.map (fun s => curvesB.val r s * regB.val n s)).sum⟩)
      ∧ ∀ r : Nat,
        (regB.rows.map (fun n => (curvesB.cols.map (fun s => curvesB.val r s * regB.val n s)).sum)).sum
          = (curvesB.cols.map (fun s => curvesB.val r s)).sum :=
  mass_conservation curvesB regB [] (curvesB_balance .raise) (by decide) regB_sums

/-- C2 counterexample: `regionalise_node` on a list of nodes does not stack
per-node profiles; it coerces the list with `str(...)` and fails the single
lookup, raising a `KeyError` even for balanced curves and a valid weight
table containing both nodes. -/
theorem node_list_counterexample :
    regionalise_node curvesB regB (.many ["N1", "N2"]) none none
      = .error .keyErrorLoc := by
  rw [regionalise_node.eq_def, curvesB_balance .warn,
    validate_regionalisation_ok curvesB regB (by decide) regB_sums_round]
  simp only []
  rw [if_neg (by decide)]

/-- C2 amended: passing a list as `node` to `regionalise_node` coerces it to
its Python string representation and looks that single key up in `reg`; when
that literal string is not a node key, the call raises a `KeyError` and
returns no result — multi-node stacking is not supported. -/
theorem node_list_coerced {ρ : Type} (curves : Frame ρ) (reg : Frame String)
    (ks : List String) (w1 w2 : List Warn)
    (hbal : validate_hourly_curves_balance curves 1 .warn = .ok w1)
    (hval : validate_regionalisation curves reg 3 .warn = .ok w2)
    (habs : pyStrList ks ∉ reg.rows) :
    regionalise_node curves reg (.many ks) none none = .error .keyErrorLoc := by
  rw [regionalise_node.eq_def, hbal, hval]
  simp only []
  rw [if_neg habs]

/-- C2 amended witness: the coercion failure at the concrete pair. -/
theorem node_list_coerced_witness :
    regionalise_node curvesB regHalf (.many ["N1", "N2"]) none none
      = .error .keyErrorLoc :=
  node_list_coerced curvesB regHalf ["N1", "N2"] [] []
    (curvesB_balance .warn)
    (validate_regionalisation_ok curvesB regHalf (by decide) regHalf_sums_round)
    (by decide)

/-- C3: Missing-key fatality.  When some curve column key is absent from the
weight table, `validate_regionalisation` raises a `KeyError` carrying the
missing keys in every error mode, and (once control reaches it past the
balance validator) both entry points propagate that error and return no
result. -/
theorem missing_key_fatality {ρ : Type} (curves : Frame ρ) (reg : Frame String)
    (prec : Nat) (errors : ErrorHandling)
    (hmiss : ∃ c ∈ curves.cols, c ∉ reg.cols) :
    validate_regionalisation curves reg prec errors
        = .error (.keyErrorMissing (missingKeys curves reg))
      ∧ (∀ w, validate_hourly_curves_balance curves 1 .raise = .ok w →
          ∀ node sector hours, regionalise_curves curves reg node sector hours
            = .error (.keyErrorMissing (missingKeys curves reg)))
      ∧ (∀ w node, validate_hourly_curves_balance curves 1 .warn = .ok w →
          ∀ sector hours, regionalise_node curves reg node sector hours
            = .error (.keyErrorMissing (missingKeys curves reg))) := by
  have hne : missingKeys curves reg ≠ [] := by
    obtain ⟨c, hc, habs⟩ := hmiss
    intro h
    rw [missingKeys, List.filter_eq_nil_iff] at h
    exact h c hc (by simp [habs])
  have hv : ∀ e, validate_regionalisation curves reg prec e
      = .error (.keyErrorMissing (missingKeys curves reg)) := by
    intro e
    rw [validate_regionalisation.eq_def, if_pos hne]
  have hv3 : validate_regionalisation curves reg 3 .warn
      = .error (.keyErrorMissing (missingKeys curves reg)) := by
    rw [validate_regionalisation.eq_def, if_pos hne]
  refine ⟨hv errors, ?_, ?_⟩
  · intro w hbal node sector hours
    rw [regionalise_curves.eq_def, hbal, hv3]
  · intro w node hbal sector hours
    rw [regionalise_node.eq_def, hbal, hv3]

/-- C3 witness: the demand key of `curvesB` is absent from `regM`. -/
theorem missing_key_fatality_witness :
    validate_regionalisation curvesB regM 3 .raise
        = .error (.keyErrorMissing (missingKeys curvesB regM))
      ∧ regionalise_curves curvesB regM none none none
        = .error (.keyErrorMissing (missingKeys curvesB regM))
      ∧ regionalise_node curvesB regM (.single "N1") none none
        = .error (.keyErrorMissing (missingKeys curvesB regM)) := by
  have h := missing_key_fatality curvesB regM 3 .raise (by decide)
  exact ⟨h.1, h.2.1 [] (curvesB_balance .raise) none none none,
    h.2.2 [] (.single "N1") (curvesB_balance .warn) none none⟩

/-- C4: Balance gate.  For every curve table with a supply and a demand
group where some hour's balance does not round to 0 at the default precision
of 1 decimal, the raise-mode balance validator raises `BalanceError`, and
`regionalise_curves` — which invokes it in raise mode before anything else —
raises `BalanceError` for every choice of subsetting arguments, returning no
result. -/
theorem balance_gate {ρ : Type} (curves : Frame ρ) (reg : Frame String)
    (hsup : hasGroup curves "supply") (hdem : hasGroup curves "demand")
    (hdef : ∃ r ∈ curves.rows, roundTo 1 (balanceAt curves r) ≠ 0) :
    validate_hourly_curves_balance curves 1 .raise = .error .balanceError
      ∧ ∀ node sector hours, regionalise_curves curves reg node sector hours
          = .error .balanceError := by
  have hb : validate_hourly_curves_balance curves 1 .raise = .error .balanceError := by
    rw [validate_hourly_curves_balance, if_neg (by simpa using hsup),
      if_neg (by simpa using hdem), if_pos hdef]
  exact ⟨hb, fun node sector hours => by rw [regionalise_curves.eq_def, hb]⟩

/-- C4 witness: a deficit of 5 in the single hour of `curvesU`. -/
theorem balance_gate_witness :
    validate_hourly_curves_balance curvesU 1 .raise = .error .balanceError
      ∧ regionalise_curves curvesU regB none none none = .error .balanceError := by
  have h := balance_gate curvesU regB (by decide) (by decide) curvesU_deficit
  exact ⟨h.1, h.2 none none none⟩

/-- C5: Single-node profile.  For balanced curves and a valid weight table
containing node `n`, the unsubsetted `regionalise_node` returns the
element-wise product of the curve table with node `n`'s weight row broadcast
across hours: every cell `(r, c)` equals `curves.val r c * reg.val n c`. -/
theorem single_node_profile {ρ : Type} (curves : Frame ρ) (reg : Frame String)
    (n : String)
    (hbal : validate_hourly_curves_balance curves 1 .warn = .ok [])
    (hkeys : listSetEq curves.cols reg.cols)
    (hsum : ∀ c ∈ reg.cols, roundTo 3 (colSum reg c) = 1)
    (hn : n ∈ reg.rows) :
    regionalise_node curves reg (.single n) none none
      = .ok ([], ⟨curves.rows, curves.cols,
          fun r c => curves.val r c * reg.val n c⟩) := by
  have hval := validate_regionalisation_ok curves reg hkeys hsum
  rw [regionalise_node.eq_def, hbal, hval]
  simp only []
  rw [if_pos hn]
  simp only [Frame.mulSeries]
  rw [if_pos hkeys]
  simp

/-- C5 witness: with every weight of node N1 equal to 0.5, the profile is
the curve table scaled by one half. -/
theorem single_node_profile_witness :
    regionalise_node curvesB regHalf (.single "N1") none none
      = .ok ([], ⟨curvesB.rows, curvesB.cols,
          fun r c => curvesB.val r c * regHalf.val "N1" c⟩) :=
  single_node_profile curvesB regHalf "N1" (curvesB_balance .warn)
    (by decide) regHalf_sums_round (by decide)

/-- C6: Subset warning, not failure.  For balanced curves and a valid weight
table containing nodes `n1` and `n2`, `regionalise_curves` with the node
subset `[n1, n2]` succeeds, logs exactly the single multi-node ambiguity
warning, and returns the matrix product of the curves with the transpose of
the two-row, all-sector subset of `reg`. -/
theorem multi_node_subset_warn {ρ : Type} (curves : Frame ρ) (reg : Frame String)
    (n1 n2 : String)
    (hbal : validate_hourly_curves_balance curves 1 .raise = .ok [])
    (hkeys : listSetEq curves.cols reg.cols)
    (hsum : ∀ c ∈ reg.cols, roundTo 3 (colSum reg c) = 1)
    (hn1 : n1 ∈ reg.rows) (hn2 : n2 ∈ reg.rows) :
    regionalise_curves curves reg (some (.many [n1, n2])) none none
      = .ok ([Warn.multiNodeSubset],
          ⟨curves.rows, [n1, n2],
            fun r n => (curves.cols.map (fun s => curves.val r s * reg.val n s)).sum⟩) := by
  have hval := validate_regionalisation_ok curves reg hkeys hsum
  rw [regionalise_curves.eq_def, hbal, hval]
  simp only [KeyArg.toList, Frame.locRows]
  rw [if_pos (by simp [hn1, hn2])]
  simp only [Frame.dotT]
  rw [if_pos hkeys]
  simp

/-- C6 witness: the two-node subset call at the concrete pair. -/
theorem multi_node_subset_warn_witness :
    regionalise_curves curvesB regB (some (.many ["N1", "N2"])) none none
      = .ok ([Warn.multiNodeSubset],
          ⟨curvesB.rows, ["N1", "N2"],
            fun r n => (curvesB.cols.map (fun s => curvesB.val r s * regB.val n s)).sum⟩) :=
  multi_node_subset_warn curvesB regB "N1" "N2" (curvesB_balance .raise)
    (by decide) regB_sums_round (by decide) (by decide)

/-- C7: Normalization check.  When no curve key is missing: warn mode returns
one `badSum` warning per offending sector key carrying its rounded sum (after
the unused-key warnings), and none when every rounded sum equals 1; raise
mode with no superfluous keys raises a single error carrying every offending
key with its rounded sum, and succeeds silently when there is no offender. -/
theorem normalization_messages {ρ : Type} (curves : Frame ρ) (reg : Frame String)
    (prec : Nat) (hmiss : missingKeys curves reg = []) :
    validate_regionalisation curves reg prec .warn
        = .ok ((superfluousKeys curves reg).map Warn.unusedKey
            ++ (checksumErrors reg prec).map (fun p => Warn.badSum p.1 p.2))
      ∧ (superfluousKeys curves reg = [] → checksumErrors reg prec ≠ [] →
          validate_regionalisation curves reg prec .raise
            = .error (.valueErrorSums (checksumErrors reg prec)))
      ∧ (superfluousKeys curves reg = [] → checksumErrors reg prec = [] →
          validate_regionalisation curves reg prec .raise = .ok []) := by
  refine ⟨?_, ?_, ?_⟩
  · rw [validate_regionalisation.eq_def, if_neg (by simp [hmiss])]
  · intro hsup hcks
    rw [validate_regionalisation.eq_def, if_neg (by simp [hmiss])]
    simp only []
    rw [if_neg (by simp [hsup]), if_pos hcks]
  · intro hsup hcks
    rw [validate_regionalisation.eq_def, if_neg (by simp [hmiss])]
    simp only []
    rw [if_neg (by simp [hsup]), if_neg (by simp [hcks])]

/-- C7 witness: `regBad` has one offending column (sum 1/2): warn mode logs
exactly that `badSum` warning, raise mode raises with that payload; `regB`
has none and passes raise mode silently. -/
theorem normalization_messages_witness :
    validate_regionalisation curvesB regBad 3 .warn
        = .ok ((superfluousKeys curvesB regBad).map Warn.unusedKey
            ++ (checksumErrors regBad 3).map (fun p => Warn.badSum p.1 p.2))
      ∧ validate_regionalisation curvesB regBad 3 .raise
        = .error (.valueErrorSums (checksumErrors regBad 3))
      ∧ validate_regionalisation curvesB regB 3 .raise = .ok [] := by
  have h := normalization_messages curvesB regBad 3 (by decide)
  have h2 := normalization_messages curvesB regB 3 (by decide)
  have hcks : checksumErrors regB 3 = [] := by
    rw [checksumErrors, List.filterMap_eq_nil_iff]
    intro c hc
    simp [regB_sums_round c hc]
  exact ⟨h.1, h.2.1 (by decide) (by rw [regBad_checksum]; simp),
    h2.2.2 (by decide) hcks⟩

/-- C9: `regionalise_node` runs the balance validator in its default warn
mode: an out-of-tolerance imbalance (with a valid weight table) never raises
`BalanceError` there — the call logs the deficit warning and still returns
the scaled profile — whereas `regionalise_curves` on the same inputs raises
`BalanceError` for every choice of subsetting arguments. -/
theorem node_deficit_warns {ρ : Type} (curves : Frame ρ) (reg : Frame String)
    (n : String)
    (hsup : hasGroup curves "supply") (hdem : hasGroup curves "demand")
    (hdef : ∃ r ∈ curves.rows, roundTo 1 (balanceAt curves r) ≠ 0)
    (hkeys : listSetEq curves.cols reg.cols)
    (hsum : ∀ c ∈ reg.cols, roundTo 3 (colSum reg c) = 1)
    (hn : n ∈ reg.rows) :
    regionalise_node curves reg (.single n) none none
      = .ok ([Warn.deficits],
          ⟨curves.rows, curves.cols, fun r c => curves.val r c * reg.val n c⟩)
      ∧ ∀ node sector hours, regionalise_curves curves reg node sector hours
          = .error .balanceError := by
  have hbal : validate_hourly_curves_balance curves 1 .warn = .ok [.deficits] := by
    rw [validate_hourly_curves_balance, if_neg (by simpa using hsup),
      if_neg (by simpa using hdem), if_pos hdef]
  have hval := validate_regionalisation_ok curves reg hkeys hsum
  constructor
  · rw [regionalise_node.eq_def, hbal, hval]
    simp only []
    rw [if_pos hn]
    simp only [Frame.mulSeries]
    rw [if_pos hkeys]
    simp
  · have hb : validate_hourly_curves_balance curves 1 .raise = .error .balanceError := by
      rw [validate_hourly_curves_balance, if_neg (by simpa using hsup),
        if_neg (by simpa using hdem), if_pos hdef]
    exact fun node sector hours => by rw [regionalise_curves.eq_def, hb]

/-- C9 witness: the unbalanced `curvesU` with the valid table `regHalf`. -/
theorem node_deficit_warns_witness :
    regionalise_node curvesU regHalf (.single "N1") none none
        = .ok ([Warn.deficits],
            ⟨curvesU.rows, curvesU.cols, fun r c => curvesU.val r c * regHalf.val "N1" c⟩)
      ∧ regionalise_curves curvesU regHalf none none none = .error .balanceError := by
  have h := node_deficit_warns curvesU regHalf "N1" (by decide) (by decide)
    curvesU_deficit (by decide) regHalf_sums_round (by decide)
  exact ⟨h.1, h.2 none none none⟩

/-- C10 counterexample: a curve table whose columns are literally named
"supply" and "demand" matches neither suffix pattern, yet the balance
validator completes without any `KeyError` in both modes, because the
classification leaves unmatched names unchanged and the group lookups then
find the literal names. -/
theorem balance_literal_group_counterexample :
    validate_hourly_curves_balance curvesLit 1 .warn = .ok []
      ∧ validate_hourly_curves_balance curvesLit 1 .raise = .ok []
      ∧ (∀ c ∈ curvesLit.cols, strEndsWith c ".output (MW)" = false)
      ∧ (∀ c ∈ curvesLit.cols, strEndsWith c ".input (MW)" = false) := by
  have hb : ∀ e, validate_hourly_curves_balance curvesLit 1 e = .ok [] := by
    intro e
    rw [validate_hourly_curves_balance.eq_def, if_neg (by decide), if_neg (by decide),
      if_neg (by simp [balanceAt, groupSum, curvesLit, roundTo_zero, pn_sup, pn_dem])]
  exact ⟨hb .warn, hb .raise, by decide, by decide⟩

/-- C10 amended: the balance validator raises a `KeyError`, in every mode,
for every curve table in which no column's classified name equals "supply"
(or, when that group exists, none equals "demand") — the group lookups are
unconditional, and classification maps suffix-matching columns to
supply/demand while leaving other names unchanged. -/
theorem balance_missing_group {ρ : Type} (curves : Frame ρ)
    (precision : Nat) (errors : ErrorHandling) :
    (¬ hasGroup curves "supply" →
        validate_hourly_curves_balance curves precision errors
          = .error (.keyErrorGroup "supply"))
      ∧ (hasGroup curves "supply" → ¬ hasGroup curves "demand" →
        validate_hourly_curves_balance curves precision errors
          = .error (.keyErrorGroup "demand")) := by
  constructor
  · intro h
    rw [validate_hourly_curves_balance.eq_def, if_pos h]
  · intro hs h
    rw [validate_hourly_curves_balance.eq_def, if_neg (by simpa using hs), if_pos h]

/-- C10 amended witness: tables lacking the supply group, respectively the
demand group. -/
theorem balance_missing_group_witness :
    validate_hourly_curves_balance curvesNoSup 1 .warn = .error (.keyErrorGroup "supply")
      ∧ validate_hourly_curves_balance curvesNoDem 1 .raise
        = .error (.keyErrorGroup "demand") :=
  ⟨(balance_missing_group curvesNoSup 1 .warn).1 (by decide),
    (balance_missing_group curvesNoDem 1 .raise).2 (by decide) (by decide)⟩

end PyETM
